import Mathlib

/-!
Verification of the gesture classification and dispatch engine of the
`gestures` daemon (src/gestures.rs, src/event_handler.rs).

Modelling conventions:
* Rust `f64` values are embedded as `ℚ`.  Every operation the engine performs
  on them (comparison, absolute value, multiplication, division by a nonzero
  number) is exact on the rationals, so the embedding is faithful on all
  reachable code paths.
* Rust integer types (`i8`, `i32`, `i64`) are embedded as `ℤ`; the engine only
  compares them for equality and passes them through, so no overflow arises.
* The side effects performed by the engine (spawning a command, synthetic
  pointer events) are reified as an `Effect` list returned next to the updated
  handler state; the mutable `self.event` field becomes explicit state passing.
* `xdoh.is_xorg` is passed as the boolean `is_xorg` parameter.
-/

/-- Direction of swipe gestures (enum `SwipeDir`, src/gestures.rs). -/
inductive SwipeDir where
  | Any
  | N
  | S
  | E
  | W
  | NE
  | NW
  | SE
  | SW
deriving DecidableEq, Repr

/-- Exact rational test for `r > 1 / (1 + sqrt 2)`, the floating comparison
`ratio > oblique_ratio` in `SwipeDir::dir`.  For `0 ≤ r` the comparison is
equivalent to `2 < (r + 1)^2` (lemma `gtOblique_iff_real` below proves the
equivalence against the real constant), which keeps the embedded classifier
computable over `ℚ`. -/
def gtOblique (r : ℚ) : Bool :=
  decide (2 < (r + 1) ^ 2)

/-- Embedding of `SwipeDir::dir(x, y)` (src/gestures.rs lines 49-81): pick the
primary compass direction from the dominant axis, then refine to a diagonal
when the minor/major ratio exceeds the oblique threshold. -/
def SwipeDir.dir (x y : ℚ) : SwipeDir :=
  if |x| = 0 ∧ |y| = 0 then
    SwipeDir.Any
  else
    let primary_direction :=
      if |x| > |y| then (if x < 0 then SwipeDir.W else SwipeDir.E)
      else (if y < 0 then SwipeDir.N else SwipeDir.S)
    let rs : ℚ × SwipeDir :=
      match primary_direction with
      | SwipeDir.N | SwipeDir.S =>
          (|x| / |y|, if x < 0 then SwipeDir.W else SwipeDir.E)
      | SwipeDir.E | SwipeDir.W =>
          (|y| / |x|, if y < 0 then SwipeDir.N else SwipeDir.S)
      | _ => (0, SwipeDir.Any)
    if gtOblique rs.1 then
      match primary_direction, rs.2 with
      | SwipeDir.N, SwipeDir.W => SwipeDir.NW
      | SwipeDir.N, SwipeDir.E => SwipeDir.NE
      | SwipeDir.S, SwipeDir.W => SwipeDir.SW
      | SwipeDir.S, SwipeDir.E => SwipeDir.SE
      | SwipeDir.E, SwipeDir.N => SwipeDir.NE
      | SwipeDir.E, SwipeDir.S => SwipeDir.SE
      | SwipeDir.W, SwipeDir.N => SwipeDir.NW
      | SwipeDir.W, SwipeDir.S => SwipeDir.SW
      | _, _ => SwipeDir.Any
    else
      primary_direction

/-- Direction of pinch gestures (enum `PinchDir`, src/gestures.rs). -/
inductive PinchDir where
  | In
  | Out
  | Clockwise
  | CounterClockwise
  | Any
deriving DecidableEq, Repr

/-- Embedding of `PinchDir::dir(scale, delta_angle)` (src/gestures.rs lines
95-111): scale inside the band (0.92, 1.08) classifies as rotation by the sign
of the angle delta, otherwise as `Out`/`In` by comparison of scale with 1. -/
def PinchDir.dir (scale delta_angle : ℚ) : PinchDir :=
  if scale > 0.92 ∧ scale < 1.08 then
    if delta_angle > 0 then PinchDir.Clockwise else PinchDir.CounterClockwise
  else if scale > 1 then PinchDir.Out
  else PinchDir.In

/-- Embedding of the `Swipe` binding/state struct (src/gestures.rs). -/
structure Swipe where
  direction : SwipeDir
  fingers : ℤ
  update : Option String
  start : Option String
  «end» : Option String
  acceleration : Option ℤ
  mouse_up_delay : Option ℤ
deriving DecidableEq, Repr

/-- Embedding of the `Pinch` binding/state struct (src/gestures.rs). -/
structure Pinch where
  fingers : ℤ
  direction : PinchDir
  update : Option String
  start : Option String
  «end» : Option String
deriving DecidableEq, Repr

/-- Embedding of the `Hold` binding/state struct (src/gestures.rs). -/
structure Hold where
  fingers : ℤ
  action : Option String
deriving DecidableEq, Repr

/-- Embedding of the `Gesture` tagged union (src/gestures.rs). -/
inductive Gesture where
  | Swipe (s : Swipe)
  | Pinch (p : Pinch)
  | Hold (h : Hold)
  | None
deriving DecidableEq, Repr

/-- Embedding of `Config` restricted to what the engine reads: the ordered
binding table `gestures` (the `config.rs` module is outside the dispatch
core; the engine only iterates `config.gestures`). -/
structure Config where
  gestures : List Gesture
deriving DecidableEq, Repr

/-- Embedding of the `EventHandler` struct: the shared configuration and the
single in-flight gesture state `event`. -/
structure EventHandler where
  config : Config
  event : Gesture
deriving DecidableEq, Repr

/-- Reified side effects of one dispatch: a spawned command with its four
numeric parameters, or one of the three pointer-synthesis primitives used by
the Xorg fast path. -/
inductive Effect where
  | execCommand (cmd : String) (dx dy delta_angle scale : ℚ)
  | mouseDown (button : ℤ)
  | moveMouseRelative (dx dy : ℤ)
  | mouseUpDelay (button delay : ℤ)
deriving DecidableEq, Repr

/-- Modelled from the spec: `exec_command_from_string` lives in `src/utils.rs`,
which is not part of the provided sources.  Per the spec, dispatch passes the
binding's action with four numeric parameters to the command-execution
collaborator, and an absent action slot (the handlers substitute the empty
string via `unwrap_or_default`) is a silent no-op, never an error. -/
def exec_command_from_string (cmd : String) (dx dy delta_angle scale : ℚ) :
    List Effect :=
  if cmd = "" then [] else [Effect.execCommand cmd dx dy delta_angle scale]

/-- Rust `f64 as i32` truncation toward zero, for in-range values. -/
def ratTrunc (q : ℚ) : ℤ :=
  if 0 ≤ q then ⌊q⌋ else ⌈q⌉

/-- Embedding of the libinput `GestureHoldEvent` variants the handler matches
on, with the data the handler reads (begin carries the finger count). -/
inductive GestureHoldEvent where
  | Begin (finger_count : ℤ)
  | End
deriving DecidableEq, Repr

/-- Embedding of the libinput `GesturePinchEvent` variants the handler matches
on, with the data the handler reads. -/
inductive GesturePinchEvent where
  | Begin (finger_count : ℤ)
  | Update (scale delta_angle : ℚ)
  | End
deriving DecidableEq, Repr

/-- Embedding of the libinput `GestureSwipeEvent` variants the handler matches
on, with the data the handler reads (the end event carries the upstream
cancellation flag). -/
inductive GestureSwipeEvent where
  | Begin (finger_count : ℤ)
  | Update (dx dy : ℚ)
  | End (cancelled : Bool)
deriving DecidableEq, Repr

/-- Loop body of the `GestureHoldEvent::End` scan (src/gestures.rs lines
247-259): a hold binding fires its single action when finger counts match. -/
def holdEndBinding (s : Hold) (g : Gesture) : List Effect :=
  match g with
  | Gesture.Hold j =>
      if j.fingers = s.fingers then
        exec_command_from_string (j.action.getD "") 0 0 0 0
      else []
  | _ => []

/-- Embedding of `EventHandler::handle_hold_event` (src/gestures.rs lines
236-265): begin stores a fresh hold state; end scans the table using the
stored state when one of kind hold is present; the state is not modified by
the end arm. -/
def handle_hold_event (eh : EventHandler) (ev : GestureHoldEvent) :
    EventHandler × List Effect :=
  match ev with
  | GestureHoldEvent.Begin f =>
      ({ eh with event := Gesture.Hold { fingers := f, action := Option.none } }, [])
  | GestureHoldEvent.End =>
      match eh.event with
      | Gesture.Hold s => (eh, eh.config.gestures.flatMap (holdEndBinding s))
      | _ => (eh, [])

/-- Loop body shared by the three `GesturePinchEvent` scans (src/gestures.rs
lines 278-292, 307-321, 333-347): the binding fires the given phase slot when
its direction equals the classified direction or is `Any` and finger counts
match exactly. -/
def pinchPhaseBinding (dir : PinchDir) (fingers : ℤ) (slot : Pinch → Option String)
    (dx dy delta_angle scale : ℚ) (g : Gesture) : List Effect :=
  match g with
  | Gesture.Pinch j =>
      if (j.direction = dir ∨ j.direction = PinchDir.Any) ∧ j.fingers = fingers then
        exec_command_from_string ((slot j).getD "") dx dy delta_angle scale
      else []
  | _ => []

/-- Embedding of `EventHandler::handle_pinch_event` (src/gestures.rs lines
267-353).  Begin overwrites the state with a fresh pinch (direction `Any`) and
runs the start scan against it; update classifies, runs the update scan with
the previous finger count, then replaces the state wholesale; end runs the end
scan with the stored state and leaves the state in place. -/
def handle_pinch_event (eh : EventHandler) (ev : GesturePinchEvent) :
    EventHandler × List Effect :=
  match ev with
  | GesturePinchEvent.Begin f =>
      let s : Pinch :=
        { fingers := f, direction := PinchDir.Any, update := Option.none,
          start := Option.none, «end» := Option.none }
      ({ eh with event := Gesture.Pinch s },
        eh.config.gestures.flatMap
          (pinchPhaseBinding s.direction s.fingers Pinch.start 0 0 0 0))
  | GesturePinchEvent.Update scale delta_angle =>
      match eh.event with
      | Gesture.Pinch s =>
          let dir := PinchDir.dir scale delta_angle
          let s2 : Pinch :=
            { fingers := s.fingers, direction := dir, update := Option.none,
              start := Option.none, «end» := Option.none }
          ({ eh with event := Gesture.Pinch s2 },
            eh.config.gestures.flatMap
              (pinchPhaseBinding dir s.fingers Pinch.update 0 0 delta_angle scale))
      | _ => (eh, [])
  | GesturePinchEvent.End =>
      match eh.event with
      | Gesture.Pinch s =>
          (eh, eh.config.gestures.flatMap
            (pinchPhaseBinding s.direction s.fingers Pinch.«end» 0 0 0 0))
      | _ => (eh, [])

/-- The `is_xorg_condition` guard repeated in the three swipe arms
(src/gestures.rs lines 375-378, 406-409, 445-448). -/
def is_xorg_condition (is_xorg : Bool) (j : Swipe) : Prop :=
  is_xorg = true ∧ j.acceleration.isSome = true ∧ j.mouse_up_delay.isSome = true ∧
    j.direction = SwipeDir.Any

instance (is_xorg : Bool) (j : Swipe) : Decidable (is_xorg_condition is_xorg j) := by
  unfold is_xorg_condition; infer_instance

/-- Loop body of the `GestureSwipeEvent::Begin` scan (src/gestures.rs lines
373-392): on the fast path press pointer button 1, otherwise run the start
slot when the direction matches the stored state or is `Any`. -/
def swipeBeginBinding (is_xorg : Bool) (s : Swipe) (g : Gesture) : List Effect :=
  match g with
  | Gesture.Swipe j =>
      if j.fingers = s.fingers then
        if is_xorg_condition is_xorg j then
          [Effect.mouseDown 1]
        else if j.direction = s.direction ∨ j.direction = SwipeDir.Any then
          exec_command_from_string (j.start.getD "") 0 0 0 0
        else []
      else []
  | _ => []

/-- Loop body of the `GestureSwipeEvent::Update` scan (src/gestures.rs lines
404-426): on the fast path move the pointer by the truncated scaled
displacement, otherwise run the update slot when the direction matches the
classification of this update or is `Any`. -/
def swipeUpdateBinding (is_xorg : Bool) (s : Swipe) (x y : ℚ) (g : Gesture) :
    List Effect :=
  match g with
  | Gesture.Swipe j =>
      if j.fingers = s.fingers then
        if is_xorg_condition is_xorg j then
          [Effect.moveMouseRelative
            (ratTrunc (x * (j.acceleration.getD 0 : ℤ) / 10))
            (ratTrunc (y * (j.acceleration.getD 0 : ℤ) / 10))]
        else if j.direction = SwipeDir.dir x y ∨ j.direction = SwipeDir.Any then
          exec_command_from_string (j.update.getD "") x y 0 0
        else []
      else []
  | _ => []

/-- Loop body of the `GestureSwipeEvent::End` scan (src/gestures.rs lines
443-466): on the fast path release pointer button 1 after the configured
delay, otherwise run the end slot when the direction matches the stored state
or is `Any`. -/
def swipeEndBinding (is_xorg : Bool) (s : Swipe) (g : Gesture) : List Effect :=
  match g with
  | Gesture.Swipe j =>
      if j.fingers = s.fingers then
        if is_xorg_condition is_xorg j then
          [Effect.mouseUpDelay 1 (j.mouse_up_delay.getD 0)]
        else if j.direction = s.direction ∨ j.direction = SwipeDir.Any then
          exec_command_from_string (j.«end».getD "") 0 0 0 0
        else []
      else []
  | _ => []

/-- Embedding of `EventHandler::handle_swipe_event` (src/gestures.rs lines
355-474).  Begin overwrites the state with a fresh swipe (direction `Any`) and
runs the begin scan against it; update classifies the displacement, runs the
update scan with the previous finger count, then replaces the state wholesale;
end runs the end scan with the stored state only when the event is not
cancelled, and never modifies the state. -/
def handle_swipe_event (eh : EventHandler) (ev : GestureSwipeEvent)
    (is_xorg : Bool) : EventHandler × List Effect :=
  match ev with
  | GestureSwipeEvent.Begin f =>
      let s : Swipe :=
        { direction := SwipeDir.Any, fingers := f, update := Option.none,
          start := Option.none, «end» := Option.none,
          acceleration := Option.none, mouse_up_delay := Option.none }
      ({ eh with event := Gesture.Swipe s },
        eh.config.gestures.flatMap (swipeBeginBinding is_xorg s))
  | GestureSwipeEvent.Update x y =>
      match eh.event with
      | Gesture.Swipe s =>
          let s2 : Swipe :=
            { direction := SwipeDir.dir x y, fingers := s.fingers,
              update := Option.none, start := Option.none, «end» := Option.none,
              acceleration := Option.none, mouse_up_delay := Option.none }
          ({ eh with event := Gesture.Swipe s2 },
            eh.config.gestures.flatMap (swipeUpdateBinding is_xorg s x y))
      | _ => (eh, [])
  | GestureSwipeEvent.End cancelled =>
      match eh.event with
      | Gesture.Swipe s =>
          (eh, if cancelled then []
            else eh.config.gestures.flatMap (swipeEndBinding is_xorg s))
      | _ => (eh, [])

/-- Match condition of the pinch dispatch scans, as a Boolean predicate on
table entries: kind pinch, direction equal to the classified direction or
`Any`, finger count equal exactly. -/
def pinchMatches (dir : PinchDir) (fingers : ℤ) (g : Gesture) : Bool :=
  match g with
  | Gesture.Pinch j =>
      decide ((j.direction = dir ∨ j.direction = PinchDir.Any) ∧ j.fingers = fingers)
  | _ => false

/-- Match condition of the swipe dispatch scans, as a Boolean predicate on
table entries. -/
def swipeMatches (dir : SwipeDir) (fingers : ℤ) (g : Gesture) : Bool :=
  match g with
  | Gesture.Swipe j =>
      decide ((j.direction = dir ∨ j.direction = SwipeDir.Any) ∧ j.fingers = fingers)
  | _ => false

/-- Match condition of the hold dispatch scan, as a Boolean predicate on
table entries. -/
def holdMatches (fingers : ℤ) (g : Gesture) : Bool :=
  match g with
  | Gesture.Hold j => decide (j.fingers = fingers)
  | _ => false

lemma flatMap_eq_filter_flatMap {α β : Type} (p : α → Bool) (f : α → List β)
    (l : List α) (h : ∀ a, p a = false → f a = []) :
    l.flatMap f = (l.filter p).flatMap f := by
  induction l with
  | nil => rfl
  | cons a l ih =>
      cases hp : p a with
      | true => simp [List.filter_cons, hp, ih]
      | false =>
          have hfa : f a = [] := h a hp
          simp [List.filter_cons, hp, hfa, ih]

/-- C4: for every (scale, angle delta) the pinch classifier returns Clockwise
when scale lies strictly between 0.92 and 1.08 and the delta is positive,
CounterClockwise when scale is in the band and the delta is nonpositive, Out
when scale is outside the band and greater than 1, and In otherwise; in
particular (1, 5) gives Clockwise, (1, -5) CounterClockwise, (1.2, 0) Out and
(0.8, 0) In. -/
theorem pinch_classifier_spec :
    (∀ scale delta_angle : ℚ,
      ((0.92 < scale ∧ scale < 1.08) →
        (0 < delta_angle → PinchDir.dir scale delta_angle = PinchDir.Clockwise) ∧
        (delta_angle ≤ 0 → PinchDir.dir scale delta_angle = PinchDir.CounterClockwise)) ∧
      (¬(0.92 < scale ∧ scale < 1.08) →
        (1 < scale → PinchDir.dir scale delta_angle = PinchDir.Out) ∧
        (scale ≤ 1 → PinchDir.dir scale delta_angle = PinchDir.In))) ∧
    PinchDir.dir 1 5 = PinchDir.Clockwise ∧
    PinchDir.dir 1 (-5) = PinchDir.CounterClockwise ∧
    PinchDir.dir 1.2 0 = PinchDir.Out ∧
    PinchDir.dir 0.8 0 = PinchDir.In := by
  refine ⟨fun scale delta_angle => ⟨?_, ?_⟩, by norm_num [PinchDir.dir],
    by norm_num [PinchDir.dir], by norm_num [PinchDir.dir], by norm_num [PinchDir.dir]⟩
  · intro hband
    refine ⟨fun hd => ?_, fun hd => ?_⟩
    · unfold PinchDir.dir
      rw [if_pos hband, if_pos hd]
    · unfold PinchDir.dir
      rw [if_pos hband, if_neg (not_lt.mpr hd)]
  · intro hband
    refine ⟨fun hs => ?_, fun hs => ?_⟩
    · unfold PinchDir.dir
      rw [if_neg hband, if_pos hs]
    · unfold PinchDir.dir
      rw [if_neg hband, if_neg (not_lt.mpr hs)]

/-- Witness for C4: the general characterization applied at the concrete
inputs (1, 5) and (0.8, 0). -/
theorem pinch_classifier_spec_witness :
    PinchDir.dir 1 5 = PinchDir.Clockwise ∧ PinchDir.dir 0.8 0 = PinchDir.In :=
  ⟨((pinch_classifier_spec.1 1 5).1 (by norm_num)).1 (by norm_num),
   ((pinch_classifier_spec.1 0.8 0).2 (by norm_num)).2 (by norm_num)⟩

/-- C10: a swipe end event reported as cancelled invokes no end-phase action
at all (neither a generic end command nor the fast-path pointer release) and
leaves the stored gesture state unchanged. -/
theorem swipe_end_cancelled_silent :
    ∀ (eh : EventHandler) (is_xorg : Bool),
      handle_swipe_event eh (GestureSwipeEvent.End true) is_xorg = (eh, []) := by
  intro eh ix
  cases h : eh.event <;> simp [handle_swipe_event, h]

/-- C1 as stated fails on the code: processing a swipe end event does not
reset the stored gesture state to `Gesture.None`; with the state holding a
swipe, the state after the end event is still that swipe, not `None`. -/
theorem end_event_reset_counterexample :
    (handle_swipe_event
      { config := { gestures := [] },
        event := Gesture.Swipe
          { direction := SwipeDir.N, fingers := 3, update := Option.none,
            start := Option.none, «end» := Option.none,
            acceleration := Option.none, mouse_up_delay := Option.none } }
      (GestureSwipeEvent.End false) false).1.event ≠ Gesture.None := by
  decide

/-- C1 amended: for every gesture kind, processing an end event runs the
dispatch engine's end phase using the last stored state, but leaves the stored
state unchanged rather than resetting it to `None`; an event processed after
an end and before the next begin therefore still sees the stale last state. -/
theorem end_phase_uses_last_state_and_preserves_it :
    ∀ (eh : EventHandler) (c ix : Bool),
      (handle_swipe_event eh (GestureSwipeEvent.End c) ix).1 = eh ∧
      (handle_pinch_event eh GesturePinchEvent.End).1 = eh ∧
      (handle_hold_event eh GestureHoldEvent.End).1 = eh ∧
      ((handle_swipe_event eh (GestureSwipeEvent.End c) ix).2 =
        match eh.event with
        | Gesture.Swipe s =>
            if c then [] else eh.config.gestures.flatMap (swipeEndBinding ix s)
        | _ => []) ∧
      ((handle_pinch_event eh GesturePinchEvent.End).2 =
        match eh.event with
        | Gesture.Pinch s =>
            eh.config.gestures.flatMap
              (pinchPhaseBinding s.direction s.fingers Pinch.«end» 0 0 0 0)
        | _ => []) ∧
      ((handle_hold_event eh GestureHoldEvent.End).2 =
        match eh.event with
        | Gesture.Hold s => eh.config.gestures.flatMap (holdEndBinding s)
        | _ => []) := by
  intro eh c ix
  cases h : eh.event <;>
    simp [handle_swipe_event, handle_pinch_event, handle_hold_event, h]

/-- C7: dispatch of a matched binding whose action slot for the current phase
is absent is a silent no-op: the handlers substitute the empty template, the
command-execution collaborator ignores it, no effect is produced, and since
all dispatch functions are total no error is raised or propagated. -/
theorem absent_action_noop :
    (∀ dx dy a sc : ℚ, exec_command_from_string "" dx dy a sc = []) ∧
    (∀ s j : Hold, j.action = Option.none →
      holdEndBinding s (Gesture.Hold j) = []) ∧
    (∀ (dir : PinchDir) (fingers : ℤ) (slot : Pinch → Option String)
        (dx dy a sc : ℚ) (j : Pinch), slot j = Option.none →
      pinchPhaseBinding dir fingers slot dx dy a sc (Gesture.Pinch j) = []) ∧
    (∀ (ix : Bool) (s j : Swipe), ¬ is_xorg_condition ix j →
      j.start = Option.none → swipeBeginBinding ix s (Gesture.Swipe j) = []) ∧
    (∀ (ix : Bool) (s j : Swipe) (x y : ℚ), ¬ is_xorg_condition ix j →
      j.update = Option.none → swipeUpdateBinding ix s x y (Gesture.Swipe j) = []) ∧
    (∀ (ix : Bool) (s j : Swipe), ¬ is_xorg_condition ix j →
      j.«end» = Option.none → swipeEndBinding ix s (Gesture.Swipe j) = []) := by
  refine ⟨fun dx dy a sc => by simp [exec_command_from_string],
    fun s j hj => ?_, fun dir fingers slot dx dy a sc j hj => ?_,
    fun ix s j hx hj => ?_, fun ix s j x y hx hj => ?_, fun ix s j hx hj => ?_⟩
  · simp [holdEndBinding, hj, exec_command_from_string]
  · simp [pinchPhaseBinding, hj, exec_command_from_string]
  · simp [swipeBeginBinding, hx, hj, exec_command_from_string]
  · simp [swipeUpdateBinding, hx, hj, exec_command_from_string]
  · simp [swipeEndBinding, hx, hj, exec_command_from_string]

/-- Witness for C7: a matched hold binding with no action produces no
effect. -/
theorem absent_action_noop_witness :
    holdEndBinding { fingers := 3, action := Option.none }
      (Gesture.Hold { fingers := 3, action := Option.none }) = [] :=
  absent_action_noop.2.1 _ _ rfl

/-- C8: violated begin/end pairing is tolerated without error: an end event
arriving while the stored state is not a gesture of the same kind (it is
`None` or a different kind) is a silent no-op ‒ no effect is produced and the
state is unchanged ‒ and a begin event simply overwrites whatever state is
stored.  All handlers are total functions, so no crash can arise. -/
theorem malformed_pairing_tolerated :
    (∀ (eh : EventHandler) (c ix : Bool), (∀ s, eh.event ≠ Gesture.Swipe s) →
      handle_swipe_event eh (GestureSwipeEvent.End c) ix = (eh, [])) ∧
    (∀ eh : EventHandler, (∀ p, eh.event ≠ Gesture.Pinch p) →
      handle_pinch_event eh GesturePinchEvent.End = (eh, [])) ∧
    (∀ eh : EventHandler, (∀ h, eh.event ≠ Gesture.Hold h) →
      handle_hold_event eh GestureHoldEvent.End = (eh, [])) ∧
    (∀ (eh : EventHandler) (f : ℤ) (ix : Bool),
      (handle_swipe_event eh (GestureSwipeEvent.Begin f) ix).1.event =
        Gesture.Swipe
          { direction := SwipeDir.Any, fingers := f, update := Option.none,
            start := Option.none, «end» := Option.none,
            acceleration := Option.none, mouse_up_delay := Option.none }) ∧
    (∀ (eh : EventHandler) (f : ℤ),
      (handle_pinch_event eh (GesturePinchEvent.Begin f)).1.event =
        Gesture.Pinch
          { fingers := f, direction := PinchDir.Any, update := Option.none,
            start := Option.none, «end» := Option.none }) ∧
    (∀ (eh : EventHandler) (f : ℤ),
      (handle_hold_event eh (GestureHoldEvent.Begin f)).1.event =
        Gesture.Hold { fingers := f, action := Option.none }) := by
  refine ⟨fun eh c ix hne => ?_, fun eh hne => ?_, fun eh hne => ?_,
    fun eh f ix => rfl, fun eh f => rfl, fun eh f => rfl⟩
  · cases h : eh.event with
    | Swipe s => exact absurd h (hne s)
    | Pinch p => simp [handle_swipe_event, h]
    | Hold hh => simp [handle_swipe_event, h]
    | None => simp [handle_swipe_event, h]
  · cases h : eh.event with
    | Pinch p => exact absurd h (hne p)
    | Swipe s => simp [handle_pinch_event, h]
    | Hold hh => simp [handle_pinch_event, h]
    | None => simp [handle_pinch_event, h]
  · cases h : eh.event with
    | Hold hh => exact absurd h (hne hh)
    | Swipe s => simp [handle_hold_event, h]
    | Pinch p => simp [handle_hold_event, h]
    | None => simp [handle_hold_event, h]

/-- Witness for C8: a swipe end event arriving in the idle state is a silent
no-op. -/
theorem malformed_pairing_tolerated_witness :
    handle_swipe_event { config := { gestures := [] }, event := Gesture.None }
      (GestureSwipeEvent.End false) false =
      ({ config := { gestures := [] }, event := Gesture.None }, []) :=
  malformed_pairing_tolerated.1 _ false false (fun _ h => Gesture.noConfusion h)

/-- C9: a swipe or pinch begin event initializes the fresh state's direction
to `Any`, and the begin scan compares each binding's direction against that
state, so a binding with a specific direction (not `Any`) contributes no
effect at all on begin; only `Any`-direction bindings can fire their start
action. -/
theorem begin_direction_any :
    (∀ (eh : EventHandler) (f : ℤ) (ix : Bool),
      (handle_swipe_event eh (GestureSwipeEvent.Begin f) ix).1.event =
        Gesture.Swipe
          { direction := SwipeDir.Any, fingers := f, update := Option.none,
            start := Option.none, «end» := Option.none,
            acceleration := Option.none, mouse_up_delay := Option.none }) ∧
    (∀ (eh : EventHandler) (f : ℤ),
      (handle_pinch_event eh (GesturePinchEvent.Begin f)).1.event =
        Gesture.Pinch
          { fingers := f, direction := PinchDir.Any, update := Option.none,
            start := Option.none, «end» := Option.none }) ∧
    (∀ (ix : Bool) (s j : Swipe), s.direction = SwipeDir.Any →
      j.direction ≠ SwipeDir.Any → swipeBeginBinding ix s (Gesture.Swipe j) = []) ∧
    (∀ (fingers : ℤ) (dx dy a sc : ℚ) (j : Pinch), j.direction ≠ PinchDir.Any →
      pinchPhaseBinding PinchDir.Any fingers Pinch.start dx dy a sc
        (Gesture.Pinch j) = []) := by
  refine ⟨fun eh f ix => rfl, fun eh f => rfl,
    fun ix s j hs hj => ?_, fun fingers dx dy a sc j hj => ?_⟩
  · simp [swipeBeginBinding, is_xorg_condition, hs, hj]
  · simp [pinchPhaseBinding, hj]

/-- Witness for C9: a north-direction swipe binding with a configured start
action fires nothing on begin. -/
theorem begin_direction_any_witness :
    swipeBeginBinding false
      { direction := SwipeDir.Any, fingers := 3, update := Option.none,
        start := Option.none, «end» := Option.none,
        acceleration := Option.none, mouse_up_delay := Option.none }
      (Gesture.Swipe
        { direction := SwipeDir.N, fingers := 3, update := Option.none,
          start := Option.some "workspace-up", «end» := Option.none,
          acceleration := Option.none, mouse_up_delay := Option.none }) = [] :=
  begin_direction_any.2.2.1 false _ _ rfl (by decide)

lemma pinchPhaseBinding_nil_of_no_match (dir : PinchDir) (fingers : ℤ)
    (slot : Pinch → Option String) (dx dy a sc : ℚ) (g : Gesture)
    (hg : pinchMatches dir fingers g = false) :
    pinchPhaseBinding dir fingers slot dx dy a sc g = [] := by
  cases g with
  | Pinch j =>
      have hne : ¬((j.direction = dir ∨ j.direction = PinchDir.Any) ∧
          j.fingers = fingers) := of_decide_eq_false hg
      simp [pinchPhaseBinding, hne]
  | Swipe s => rfl
  | Hold h => rfl
  | None => rfl

lemma holdEndBinding_nil_of_no_match (s : Hold) (g : Gesture)
    (hg : holdMatches s.fingers g = false) : holdEndBinding s g = [] := by
  cases g with
  | Hold j =>
      have hne : ¬ j.fingers = s.fingers := of_decide_eq_false hg
      simp [holdEndBinding, hne]
  | Swipe j => rfl
  | Pinch j => rfl
  | None => rfl

lemma swipeUpdateBinding_nil_of_no_match (ix : Bool) (s : Swipe) (x y : ℚ)
    (g : Gesture) (hg : swipeMatches (SwipeDir.dir x y) s.fingers g = false) :
    swipeUpdateBinding ix s x y g = [] := by
  cases g with
  | Swipe j =>
      have hne : ¬((j.direction = SwipeDir.dir x y ∨ j.direction = SwipeDir.Any) ∧
          j.fingers = s.fingers) := of_decide_eq_false hg
      by_cases hf : j.fingers = s.fingers
      · have hd : ¬(j.direction = SwipeDir.dir x y ∨ j.direction = SwipeDir.Any) :=
          fun h => hne ⟨h, hf⟩
        have hany : ¬ is_xorg_condition ix j := fun hc => hd (Or.inr hc.2.2.2)
        simp [swipeUpdateBinding, hf, hany, hd]
      · simp [swipeUpdateBinding, hf]
  | Pinch j => rfl
  | Hold j => rfl
  | None => rfl

lemma swipeBeginBinding_nil_of_no_match (ix : Bool) (s : Swipe) (g : Gesture)
    (hg : swipeMatches s.direction s.fingers g = false) :
    swipeBeginBinding ix s g = [] := by
  cases g with
  | Swipe j =>
      have hne : ¬((j.direction = s.direction ∨ j.direction = SwipeDir.Any) ∧
          j.fingers = s.fingers) := of_decide_eq_false hg
      by_cases hf : j.fingers = s.fingers
      · have hd : ¬(j.direction = s.direction ∨ j.direction = SwipeDir.Any) :=
          fun h => hne ⟨h, hf⟩
        have hany : ¬ is_xorg_condition ix j := fun hc => hd (Or.inr hc.2.2.2)
        simp [swipeBeginBinding, hf, hany, hd]
      · simp [swipeBeginBinding, hf]
  | Pinch j => rfl
  | Hold j => rfl
  | None => rfl

lemma swipeEndBinding_nil_of_no_match (ix : Bool) (s : Swipe) (g : Gesture)
    (hg : swipeMatches s.direction s.fingers g = false) :
    swipeEndBinding ix s g = [] := by
  cases g with
  | Swipe j =>
      have hne : ¬((j.direction = s.direction ∨ j.direction = SwipeDir.Any) ∧
          j.fingers = s.fingers) := of_decide_eq_false hg
      by_cases hf : j.fingers = s.fingers
      · have hd : ¬(j.direction = s.direction ∨ j.direction = SwipeDir.Any) :=
          fun h => hne ⟨h, hf⟩
        have hany : ¬ is_xorg_condition ix j := fun hc => hd (Or.inr hc.2.2.2)
        simp [swipeEndBinding, hf, hany, hd]
      · simp [swipeEndBinding, hf]
  | Pinch j => rfl
  | Hold j => rfl
  | None => rfl

/-- C2: for every dispatch phase and every classified state the engine scans
the whole binding table in insertion order and fires every matching binding:
the scan of a concatenated table is the concatenation of the scans (matching
never stops at the first hit), a scan equals the scan restricted to the
matching bindings (kind matches, finger count equal, direction equal or Any),
a matching pinch binding contributes exactly the invocation of the phase
slot, and a duplicated matching binding fires its action exactly once per
copy. -/
theorem dispatch_fires_all_matching :
    (∀ (t1 t2 : List Gesture) (dir : PinchDir) (fingers : ℤ)
        (slot : Pinch → Option String) (dx dy a sc : ℚ),
      (t1 ++ t2).flatMap (pinchPhaseBinding dir fingers slot dx dy a sc) =
        t1.flatMap (pinchPhaseBinding dir fingers slot dx dy a sc) ++
          t2.flatMap (pinchPhaseBinding dir fingers slot dx dy a sc)) ∧
    (∀ (table : List Gesture) (dir : PinchDir) (fingers : ℤ)
        (slot : Pinch → Option String) (dx dy a sc : ℚ),
      table.flatMap (pinchPhaseBinding dir fingers slot dx dy a sc) =
        (table.filter (pinchMatches dir fingers)).flatMap
          (pinchPhaseBinding dir fingers slot dx dy a sc)) ∧
    (∀ (dir : PinchDir) (fingers : ℤ) (slot : Pinch → Option String)
        (dx dy a sc : ℚ) (j : Pinch),
      pinchMatches dir fingers (Gesture.Pinch j) = true →
      pinchPhaseBinding dir fingers slot dx dy a sc (Gesture.Pinch j) =
        exec_command_from_string ((slot j).getD "") dx dy a sc) ∧
    (∀ (table : List Gesture) (s : Hold),
      table.flatMap (holdEndBinding s) =
        (table.filter (holdMatches s.fingers)).flatMap (holdEndBinding s)) ∧
    (∀ (table : List Gesture) (ix : Bool) (s : Swipe) (x y : ℚ),
      table.flatMap (swipeUpdateBinding ix s x y) =
        (table.filter (swipeMatches (SwipeDir.dir x y) s.fingers)).flatMap
          (swipeUpdateBinding ix s x y)) ∧
    (∀ (table : List Gesture) (ix : Bool) (s : Swipe),
      table.flatMap (swipeBeginBinding ix s) =
        (table.filter (swipeMatches s.direction s.fingers)).flatMap
          (swipeBeginBinding ix s)) ∧
    (∀ (table : List Gesture) (ix : Bool) (s : Swipe),
      table.flatMap (swipeEndBinding ix s) =
        (table.filter (swipeMatches s.direction s.fingers)).flatMap
          (swipeEndBinding ix s)) ∧
    (∀ (dir : PinchDir) (fingers : ℤ) (slot : Pinch → Option String)
        (dx dy a sc : ℚ) (j : Pinch) (cmd : String),
      pinchMatches dir fingers (Gesture.Pinch j) = true →
      slot j = Option.some cmd → cmd ≠ "" →
      [Gesture.Pinch j, Gesture.Pinch j].flatMap
          (pinchPhaseBinding dir fingers slot dx dy a sc) =
        [Effect.execCommand cmd dx dy a sc, Effect.execCommand cmd dx dy a sc]) := by
  refine ⟨fun t1 t2 dir fingers slot dx dy a sc => List.flatMap_append t1 t2 _,
    fun table dir fingers slot dx dy a sc =>
      flatMap_eq_filter_flatMap _ _ _
        (pinchPhaseBinding_nil_of_no_match dir fingers slot dx dy a sc),
    fun dir fingers slot dx dy a sc j hm => ?_,
    fun table s =>
      flatMap_eq_filter_flatMap _ _ _ (holdEndBinding_nil_of_no_match s),
    fun table ix s x y =>
      flatMap_eq_filter_flatMap _ _ _ (swipeUpdateBinding_nil_of_no_match ix s x y),
    fun table ix s =>
      flatMap_eq_filter_flatMap _ _ _ (swipeBeginBinding_nil_of_no_match ix s),
    fun table ix s =>
      flatMap_eq_filter_flatMap _ _ _ (swipeEndBinding_nil_of_no_match ix s),
    fun dir fingers slot dx dy a sc j cmd hm hslot hcmd => ?_⟩
  · have hp := of_decide_eq_true hm
    simp [pinchPhaseBinding, hp]
  · have hp := of_decide_eq_true hm
    simp [pinchPhaseBinding, hp, hslot, exec_command_from_string, hcmd]

/-- Witness for C2: a table holding two identical matching pinch bindings
fires the update action of each exactly once, in table order. -/
theorem dispatch_fires_all_matching_witness :
    [Gesture.Pinch
        { fingers := 2, direction := PinchDir.Out, update := Option.some "zoom",
          start := Option.none, «end» := Option.none },
      Gesture.Pinch
        { fingers := 2, direction := PinchDir.Out, update := Option.some "zoom",
          start := Option.none, «end» := Option.none }].flatMap
      (pinchPhaseBinding PinchDir.Out 2 Pinch.update 0 0 0 (3/2)) =
    [Effect.execCommand "zoom" 0 0 0 (3/2),
      Effect.execCommand "zoom" 0 0 0 (3/2)] :=
  dispatch_fires_all_matching.2.2.2.2.2.2.2 PinchDir.Out 2 Pinch.update 0 0 0 (3/2)
    _ "zoom" (by decide) rfl (by decide)

lemma mem_exec_command {e : Effect} {cmd : String} {dx dy a sc : ℚ}
    (he : e ∈ exec_command_from_string cmd dx dy a sc) :
    e = Effect.execCommand cmd dx dy a sc := by
  unfold exec_command_from_string at he
  by_cases hc : cmd = ""
  · rw [if_pos hc] at he
    cases he
  · rw [if_neg hc] at he
    simpa using he

lemma swipeBeginBinding_members (ix : Bool) (s j : Swipe)
    (hx : ¬ is_xorg_condition ix j) :
    ∀ e ∈ swipeBeginBinding ix s (Gesture.Swipe j),
      ∃ cmd dx dy da scl, e = Effect.execCommand cmd dx dy da scl := by
  intro e he
  by_cases hf : j.fingers = s.fingers
  · by_cases hd : j.direction = s.direction ∨ j.direction = SwipeDir.Any
    · simp only [swipeBeginBinding, if_pos hf, if_neg hx, if_pos hd] at he
      exact ⟨_, _, _, _, _, mem_exec_command he⟩
    · simp [swipeBeginBinding, hf, hx, hd] at he
  · simp [swipeBeginBinding, hf] at he

lemma swipeUpdateBinding_members (ix : Bool) (s j : Swipe) (x y : ℚ)
    (hx : ¬ is_xorg_condition ix j) :
    ∀ e ∈ swipeUpdateBinding ix s x y (Gesture.Swipe j),
      ∃ cmd dx dy da scl, e = Effect.execCommand cmd dx dy da scl := by
  intro e he
  by_cases hf : j.fingers = s.fingers
  · by_cases hd : j.direction = SwipeDir.dir x y ∨ j.direction = SwipeDir.Any
    · simp only [swipeUpdateBinding, if_pos hf, if_neg hx, if_pos hd] at he
      exact ⟨_, _, _, _, _, mem_exec_command he⟩
    · simp [swipeUpdateBinding, hf, hx, hd] at he
  · simp [swipeUpdateBinding, hf] at he

lemma swipeEndBinding_members (ix : Bool) (s j : Swipe)
    (hx : ¬ is_xorg_condition ix j) :
    ∀ e ∈ swipeEndBinding ix s (Gesture.Swipe j),
      ∃ cmd dx dy da scl, e = Effect.execCommand cmd dx dy da scl := by
  intro e he
  by_cases hf : j.fingers = s.fingers
  · by_cases hd : j.direction = s.direction ∨ j.direction = SwipeDir.Any
    · simp only [swipeEndBinding, if_pos hf, if_neg hx, if_pos hd] at he
      exact ⟨_, _, _, _, _, mem_exec_command he⟩
    · simp [swipeEndBinding, hf, hx, hd] at he
  · simp [swipeEndBinding, hf] at he

/-- C5: for a swipe binding whose finger count matches the in-flight state,
the fast path (direct pointer synthesis) is taken exactly when the legacy
windowing flag is set, the binding's direction is Any and both tuning fields
(acceleration, release delay) are set; when taken, the update phase issues a
relative pointer move of displacement times acceleration over 10 truncated
toward zero, and the generic command path contributes nothing for that
binding and event (the two paths are mutually exclusive). -/
theorem swipe_fast_path_spec (ix : Bool) (s j : Swipe) (x y : ℚ)
    (hf : j.fingers = s.fingers) :
    (is_xorg_condition ix j →
      swipeUpdateBinding ix s x y (Gesture.Swipe j) =
        [Effect.moveMouseRelative
          (ratTrunc (x * (j.acceleration.getD 0 : ℤ) / 10))
          (ratTrunc (y * (j.acceleration.getD 0 : ℤ) / 10))] ∧
      swipeBeginBinding ix s (Gesture.Swipe j) = [Effect.mouseDown 1] ∧
      swipeEndBinding ix s (Gesture.Swipe j) =
        [Effect.mouseUpDelay 1 (j.mouse_up_delay.getD 0)]) ∧
    (¬ is_xorg_condition ix j →
      ∀ e ∈ swipeUpdateBinding ix s x y (Gesture.Swipe j) ++
          swipeBeginBinding ix s (Gesture.Swipe j) ++
          swipeEndBinding ix s (Gesture.Swipe j),
        ∃ cmd dx dy da scl, e = Effect.execCommand cmd dx dy da scl) := by
  constructor
  · intro hx
    refine ⟨?_, ?_, ?_⟩
    · simp [swipeUpdateBinding, hf, hx]
    · simp [swipeBeginBinding, hf, hx]
    · simp [swipeEndBinding, hf, hx]
  · intro hx e he
    rw [List.mem_append, List.mem_append] at he
    rcases he with (he | he) | he
    · exact swipeUpdateBinding_members ix s j x y hx e he
    · exact swipeBeginBinding_members ix s j hx e he
    · exact swipeEndBinding_members ix s j hx e he

/-- Witness for C5: with the legacy flag set, an Any-direction three-finger
binding with acceleration 12 and release delay 100 moves the pointer by
(5 * 12 / 10, -3 * 12 / 10) truncated toward zero, that is (6, -3). -/
theorem swipe_fast_path_spec_witness :
    swipeUpdateBinding true
      { direction := SwipeDir.Any, fingers := 3, update := Option.none,
        start := Option.none, «end» := Option.none,
        acceleration := Option.none, mouse_up_delay := Option.none }
      5 (-3)
      (Gesture.Swipe
        { direction := SwipeDir.Any, fingers := 3, update := Option.some "u",
          start := Option.none, «end» := Option.none,
          acceleration := Option.some 12, mouse_up_delay := Option.some 100 }) =
      [Effect.moveMouseRelative 6 (-3)] := by
  have h := (swipe_fast_path_spec true
    { direction := SwipeDir.Any, fingers := 3, update := Option.none,
      start := Option.none, «end» := Option.none,
      acceleration := Option.none, mouse_up_delay := Option.none }
    { direction := SwipeDir.Any, fingers := 3, update := Option.some "u",
      start := Option.none, «end» := Option.none,
      acceleration := Option.some 12, mouse_up_delay := Option.some 100 }
    5 (-3) rfl).1 ⟨rfl, rfl, rfl, rfl⟩
  rw [h.1]
  norm_num [ratTrunc, Int.ceil_eq_iff]

lemma gtOblique_iff_real (r : ℚ) (hr : 0 ≤ r) :
    gtOblique r = true ↔ 1 / (1 + Real.sqrt 2) < (r : ℝ) := by
  have hsq : Real.sqrt 2 ^ 2 = 2 := Real.sq_sqrt (by norm_num)
  have hsnn : 0 ≤ Real.sqrt 2 := Real.sqrt_nonneg 2
  have hpos : 0 < 1 + Real.sqrt 2 := by linarith
  have hthr : 1 / (1 + Real.sqrt 2) = Real.sqrt 2 - 1 := by
    rw [div_eq_iff (ne_of_gt hpos)]
    nlinarith [hsq]
  have hrR : (0:ℝ) ≤ (r : ℝ) := by exact_mod_cast hr
  have hr1 : (0:ℝ) < (r : ℝ) + 1 := by linarith
  constructor
  · intro h
    have h2 : (2:ℚ) < (r + 1) ^ 2 := by simpa [gtOblique] using h
    have h2R : (2:ℝ) < ((r : ℝ) + 1) ^ 2 := by exact_mod_cast h2
    have hlt := (Real.sqrt_lt' hr1).mpr h2R
    rw [hthr]
    linarith
  · intro h
    rw [hthr] at h
    have hlt : Real.sqrt 2 < (r : ℝ) + 1 := by linarith
    have h2R := (Real.sqrt_lt' hr1).mp hlt
    have h2 : (2:ℚ) < (r + 1) ^ 2 := by exact_mod_cast h2R
    simpa [gtOblique] using h2

lemma dir_unfold (x y : ℚ) :
    SwipeDir.dir x y =
      if |x| = 0 ∧ |y| = 0 then SwipeDir.Any
      else if |x| > |y| then
        if gtOblique (|y| / |x|) then
          (if x < 0 then (if y < 0 then SwipeDir.NW else SwipeDir.SW)
           else (if y < 0 then SwipeDir.NE else SwipeDir.SE))
        else (if x < 0 then SwipeDir.W else SwipeDir.E)
      else
        if gtOblique (|x| / |y|) then
          (if y < 0 then (if x < 0 then SwipeDir.NW else SwipeDir.NE)
           else (if x < 0 then SwipeDir.SW else SwipeDir.SE))
        else (if y < 0 then SwipeDir.N else SwipeDir.S) := by
  unfold SwipeDir.dir
  by_cases h0 : |x| = 0 ∧ |y| = 0
  · simp [h0]
  · by_cases hxy : |x| > |y| <;> by_cases hx : x < 0 <;> by_cases hy : y < 0 <;>
      simp [h0, hxy, hx, hy]

/-- C6: the swipe classifier is invariant under positive scaling of the
displacement: for every input (dx, dy) and every positive rational factor k,
classifying (k*dx, k*dy) yields the same direction as classifying (dx, dy). -/
theorem swipe_scale_invariance (x y k : ℚ) (hk : 0 < k) :
    SwipeDir.dir (k * x) (k * y) = SwipeDir.dir x y := by
  have hkne : k ≠ 0 := ne_of_gt hk
  have hax : |k * x| = k * |x| := by rw [abs_mul, abs_of_pos hk]
  have hay : |k * y| = k * |y| := by rw [abs_mul, abs_of_pos hk]
  rw [dir_unfold, dir_unfold, hax, hay]
  have h0 : (k * |x| = 0 ∧ k * |y| = 0) ↔ (|x| = 0 ∧ |y| = 0) := by
    constructor
    · rintro ⟨h1, h2⟩
      exact ⟨(mul_eq_zero.mp h1).resolve_left hkne,
        (mul_eq_zero.mp h2).resolve_left hkne⟩
    · rintro ⟨h1, h2⟩
      rw [h1, h2]
      simp
  have hcmp : (k * |x| > k * |y|) ↔ (|x| > |y|) := mul_lt_mul_left hk
  have hxneg : k * x < 0 ↔ x < 0 := by
    constructor
    · intro h
      by_contra h'
      push_neg at h'
      nlinarith
    · exact mul_neg_of_pos_of_neg hk
  have hyneg : k * y < 0 ↔ y < 0 := by
    constructor
    · intro h
      by_contra h'
      push_neg at h'
      nlinarith
    · exact mul_neg_of_pos_of_neg hk
  have hdivyx : k * |y| / (k * |x|) = |y| / |x| := mul_div_mul_left _ _ hkne
  have hdivxy : k * |x| / (k * |y|) = |x| / |y| := mul_div_mul_left _ _ hkne
  simp only [h0, hcmp, hxneg, hyneg, hdivyx, hdivxy]

/-- Witness for C6: doubling the displacement (3, 1) leaves the classified
direction unchanged. -/
theorem swipe_scale_invariance_witness :
    SwipeDir.dir (2 * 3) (2 * 1) = SwipeDir.dir 3 1 :=
  swipe_scale_invariance 3 1 2 (by norm_num)

/-- C3: the swipe classifier returns Any exactly on (0, 0); otherwise the
primary axis is the one with the larger absolute component (a tie goes to the
vertical axis), the primary direction is chosen by the sign of the dominant
component (negative y gives N, negative x gives W), and the result is the
corresponding diagonal, combining the minor axis's sign, exactly when the
minor-to-major magnitude ratio strictly exceeds 1 / (1 + sqrt 2); otherwise it
is the primary direction alone. -/
theorem swipe_classifier_spec :
    ∀ x y : ℚ,
      ((x = 0 ∧ y = 0) → SwipeDir.dir x y = SwipeDir.Any) ∧
      (¬(x = 0 ∧ y = 0) →
        ((((min |x| |y| : ℚ) : ℝ) / ((max |x| |y| : ℚ) : ℝ) ≤
            1 / (1 + Real.sqrt 2) →
          SwipeDir.dir x y =
            (if |x| > |y| then (if x < 0 then SwipeDir.W else SwipeDir.E)
             else (if y < 0 then SwipeDir.N else SwipeDir.S))) ∧
        (1 / (1 + Real.sqrt 2) <
            ((min |x| |y| : ℚ) : ℝ) / ((max |x| |y| : ℚ) : ℝ) →
          SwipeDir.dir x y =
            (if |x| > |y| then
              (if x < 0 then (if y < 0 then SwipeDir.NW else SwipeDir.SW)
               else (if y < 0 then SwipeDir.NE else SwipeDir.SE))
             else
              (if y < 0 then (if x < 0 then SwipeDir.NW else SwipeDir.NE)
               else (if x < 0 then SwipeDir.SW else SwipeDir.SE)))))) := by
  intro x y
  constructor
  · rintro ⟨hx, hy⟩
    subst hx
    subst hy
    simp [SwipeDir.dir]
  · intro h0
    have h0' : ¬(|x| = 0 ∧ |y| = 0) := by simpa [abs_eq_zero] using h0
    by_cases hxy : |x| > |y|
    · have hmin : min |x| |y| = |y| := min_eq_right (le_of_lt hxy)
      have hmax : max |x| |y| = |x| := max_eq_left (le_of_lt hxy)
      have hr : (0:ℚ) ≤ |y| / |x| := div_nonneg (abs_nonneg y) (abs_nonneg x)
      have hcast : ((min |x| |y| : ℚ) : ℝ) / ((max |x| |y| : ℚ) : ℝ) =
          ((|y| / |x| : ℚ) : ℝ) := by
        rw [hmin, hmax, Rat.cast_div]
      constructor
      · intro hle
        rw [hcast] at hle
        have hob : gtOblique (|y| / |x|) = false := by
          cases hgo : gtOblique (|y| / |x|) with
          | false => rfl
          | true =>
              exact absurd ((gtOblique_iff_real _ hr).mp hgo) (not_lt.mpr hle)
        rw [dir_unfold, if_neg h0', if_pos hxy, hob]
        simp only [Bool.false_eq_true, if_false, if_true]
        rw [if_pos hxy]
      · intro hlt
        rw [hcast] at hlt
        have hob : gtOblique (|y| / |x|) = true := (gtOblique_iff_real _ hr).mpr hlt
        rw [dir_unfold, if_neg h0', if_pos hxy, hob]
        simp only [Bool.false_eq_true, if_false, if_true]
        rw [if_pos hxy]
    · have hxle : |x| ≤ |y| := not_lt.mp hxy
      have hmin : min |x| |y| = |x| := min_eq_left hxle
      have hmax : max |x| |y| = |y| := max_eq_right hxle
      have hr : (0:ℚ) ≤ |x| / |y| := div_nonneg (abs_nonneg x) (abs_nonneg y)
      have hcast : ((min |x| |y| : ℚ) : ℝ) / ((max |x| |y| : ℚ) : ℝ) =
          ((|x| / |y| : ℚ) : ℝ) := by
        rw [hmin, hmax, Rat.cast_div]
      constructor
      · intro hle
        rw [hcast] at hle
        have hob : gtOblique (|x| / |y|) = false := by
          cases hgo : gtOblique (|x| / |y|) with
          | false => rfl
          | true =>
              exact absurd ((gtOblique_iff_real _ hr).mp hgo) (not_lt.mpr hle)
        rw [dir_unfold, if_neg h0', if_neg hxy, hob]
        simp only [Bool.false_eq_true, if_false, if_true]
        rw [if_neg hxy]
      · intro hlt
        rw [hcast] at hlt
        have hob : gtOblique (|x| / |y|) = true := (gtOblique_iff_real _ hr).mpr hlt
        rw [dir_unfold, if_neg h0', if_neg hxy, hob]
        simp only [Bool.false_eq_true, if_false, if_true]
        rw [if_neg hxy]

/-- Witness for C3: the tie |dx| = |dy| at (1, 1) goes to the vertical axis
(primary S), and the ratio 1 exceeds the oblique threshold, giving the
diagonal SE. -/
theorem swipe_classifier_spec_witness : SwipeDir.dir 1 1 = SwipeDir.SE := by
  have h := (swipe_classifier_spec 1 1).2 (by norm_num)
  have hkey : 1 / (1 + Real.sqrt 2) < (1:ℝ) := by
    have hs : (0:ℝ) < Real.sqrt 2 := Real.sqrt_pos.mpr (by norm_num)
    have hpos : (0:ℝ) < 1 + Real.sqrt 2 := by linarith
    rw [div_lt_one hpos]
    linarith
  have hone : ((min |(1:ℚ)| |(1:ℚ)| : ℚ) : ℝ) / ((max |(1:ℚ)| |(1:ℚ)| : ℚ) : ℝ) =
      (1:ℝ) := by norm_num
  have h2 := h.2 (by rw [hone]; exact hkey)
  norm_num at h2
  exact h2
